import Mathlib

/-!
Verification of the astro chart engine (`backend/astro_engine/engine_se.py`
and `backend/astro_engine/formatting.py`).

The Python code is shallowly embedded over `ℚ`: Python's float modulo
`a % b` (sign of the divisor) is `qmod a b = a - b * ⌊a / b⌋`, Python's
`round` is banker's rounding (`pyRound`), and `math.floor` is `Int.floor`.
-/

namespace AstroEngine


/-- Python float modulo for a positive divisor: `a % b = a - b * ⌊a / b⌋`. -/
def qmod (a b : ℚ) : ℚ := a - b * ⌊a / b⌋

/-- Embeds `_wrap360(a) = a % 360.0`. -/
def wrap360 (a : ℚ) : ℚ := qmod a 360

/-- Embeds `_shortest_signed_diff(a, b) = ((a - b + 180.0) % 360.0) - 180.0`. -/
def shortestSignedDiff (a b : ℚ) : ℚ := qmod (a - b + 180) 360 - 180

/-- Python's `round` to the nearest integer, ties to even (banker's rounding). -/
def pyRound (x : ℚ) : ℤ :=
  let n := ⌊x⌋
  let r := x - n
  if 1/2 < r then n + 1
  else if r < 1/2 then n
  else if n % 2 = 0 then n else n + 1

/-- Python `round(x, 2)`: rounding to two decimal places. -/
def round2 (x : ℚ) : ℚ := (pyRound (x * 100) : ℚ) / 100

-- ---------------------------------------------------------------------------
-- `_deg_to_dms_str`: degree / minute / second fields with rounding carries
-- ---------------------------------------------------------------------------

/-- The field `d = int(math.floor(deg))` in `_deg_to_dms_str`. -/
def dmsD (deg : ℚ) : ℤ := ⌊deg⌋

/-- The value `m_float = (deg - d) * 60.0`. -/
def dmsMf (deg : ℚ) : ℚ := (deg - ⌊deg⌋) * 60

/-- The field `m = int(math.floor(m_float))`. -/
def dmsM (deg : ℚ) : ℤ := ⌊dmsMf deg⌋

/-- The fractional seconds `(m_float - m) * 60.0` before rounding. -/
def dmsSf (deg : ℚ) : ℚ := (dmsMf deg - dmsM deg) * 60

/-- The field `s = int(round((m_float - m) * 60.0))`. -/
def dmsS0 (deg : ℚ) : ℤ := pyRound (dmsSf deg)

/-- The `(degree, minute, second)` fields of `_deg_to_dms_str`, including the
two rounding carries (`s == 60` rolls into the minute, `m == 60` into the
degree). -/
def degToDMS (deg : ℚ) : ℤ × ℤ × ℤ :=
  let m1 := if dmsS0 deg = 60 then dmsM deg + 1 else dmsM deg
  ((if m1 = 60 then dmsD deg + 1 else dmsD deg),
   (if m1 = 60 then 0 else m1),
   (if dmsS0 deg = 60 then 0 else dmsS0 deg))

/-- Zero-padding to two digits, as Python's `{:02d}` format. -/
def pad2 (n : ℤ) : String := if 0 ≤ n ∧ n < 10 then "0" ++ toString n else toString n

/-- Embeds `_deg_to_dms_str(deg)`, producing the string `D°MM'SS`. -/
def degToDmsStr (deg : ℚ) : String :=
  toString (degToDMS deg).1 ++ "°" ++ pad2 (degToDMS deg).2.1 ++ "'"
    ++ pad2 (degToDMS deg).2.2

-- ---------------------------------------------------------------------------
-- Zodiac signs and the house locator
-- ---------------------------------------------------------------------------

/-- The fixed 12-sign table `SIGNS`. -/
def SIGNS : List String :=
  ["Aries", "Taurus", "Gemini", "Cancer", "Leo", "Virgo",
   "Libra", "Scorpio", "Sagittarius", "Capricorn", "Aquarius", "Pisces"]

/-- The index `int(_wrap360(lon) // 30)`: the 0-based sign index of a longitude. -/
def signIdx (lon : ℚ) : ℕ := (⌊wrap360 lon / 30⌋).toNat

/-- Embeds `_sign_of(lon) = SIGNS[int(_wrap360(lon) // 30)]`. -/
def signOf (lon : ℚ) : String := SIGNS.getD (signIdx lon) ""

/-- The membership test of `house_of`: the wrap-aware half-open interval
`[cusp_i, cusp_{i+1})` test, where both cusps are first reduced mod 360
(`c1 = cusps[i] % 360`, `c2 = cusps[(i+1) % 12] % 360`). -/
def insideHouse (cusps : Fin 12 → ℚ) (x : ℚ) (i : Fin 12) : Bool :=
  let c1 := wrap360 (cusps i)
  let c2 := wrap360 (cusps (i + 1))
  if c1 ≤ c2 then decide (c1 ≤ x) && decide (x < c2)
  else decide (c1 ≤ x) || decide (x < c2)

/-- The scan loop of `house_of`: try houses in order, first hit wins,
fall back to 12 when the list is exhausted. -/
def houseScanAux (cusps : Fin 12 → ℚ) (x : ℚ) : List (Fin 12) → ℕ
  | [] => 12
  | i :: rest =>
    if insideHouse cusps x i then (i : ℕ) + 1 else houseScanAux cusps x rest

/-- Embeds `house_of(l)`: wrap the query longitude, scan houses 1..12. -/
def houseOf (cusps : Fin 12 → ℚ) (l : ℚ) : ℕ :=
  houseScanAux cusps (wrap360 l) (List.finRange 12)

/-- Equally spaced cusps at multiples of 30 degrees, used as a concrete
configuration for witnesses. -/
def cusps0 : Fin 12 → ℚ := fun i => 30 * ((i : ℕ) : ℚ)

-- ---------------------------------------------------------------------------
-- Motion classifier (`_motion_sign` / `_is_retrograde`)
-- ---------------------------------------------------------------------------

/-- The constant `_STEP_DAYS = 12.0 / 24.0`. -/
def STEP_DAYS : ℚ := 1/2

/-- The constant `_EPS_DEG = 1e-4`. -/
def EPS_DEG : ℚ := 1/10000

/-- Embeds `_motion_sign`: signed angular change between the probes at `t + Δ` and
`t - Δ`, with each sampled longitude reduced mod 360 first, over an abstract
ephemeris longitude function `f`. -/
def motionSign (f : ℚ → ℚ) (jd : ℚ) : ℚ :=
  shortestSignedDiff (wrap360 (f (jd + STEP_DAYS))) (wrap360 (f (jd - STEP_DAYS)))

/-- Embeds `_is_retrograde`: classify the probe value against `±ε`. -/
def isRetrograde (f : ℚ → ℚ) (jd : ℚ) : String :=
  let s := motionSign f jd
  if s > EPS_DEG then "direct"
  else if s < -EPS_DEG then "retrograde"
  else "stationary"

-- ---------------------------------------------------------------------------
-- Aspect finder (`MAJOR_ASPECTS`, `ASPECT_ORBS`, `_find_major_aspects`)
-- ---------------------------------------------------------------------------

/-- The fixed aspect catalogue, in the iteration order of `MAJOR_ASPECTS`,
paired with the per-aspect maximum orb of `ASPECT_ORBS`:
`(name, exact angle, max orb)`. -/
def aspectCatalog : List (String × ℚ × ℚ) :=
  [("Conjunction", 0, 8), ("Opposition", 180, 8), ("Trine", 120, 7),
   ("Square", 90, 6), ("Sextile", 60, 4), ("Quincunx", 150, 3)]

/-- The inner loop of `_find_major_aspects` for one body pair: every
catalogue aspect whose orb `|diff - angle|` is within its max orb, with the
orb reported rounded to 2 decimals. -/
def pairAspects (lonA lonB : ℚ) : List (String × ℚ) :=
  let diff := |shortestSignedDiff lonA lonB|
  (aspectCatalog.filter (fun c => decide (|diff - c.2.1| ≤ c.2.2))).map
    (fun c => (c.1, round2 |diff - c.2.1|))

/-- The index pairs `(i, j)` with `i < j < n` scanned by the double loop. -/
def allPairs (n : ℕ) : List (ℕ × ℕ) :=
  (List.range n).flatMap
    (fun i => ((List.range n).filter (fun j => decide (i < j))).map (fun j => (i, j)))

/-- Embeds `_find_major_aspects` over a positional list of body longitudes:
emits `(indexA, aspect name, indexB, rounded orb)` tuples. -/
def findMajorAspects (lons : List ℚ) : List (ℕ × String × ℕ × ℚ) :=
  (allPairs lons.length).flatMap
    (fun p => (pairAspects (lons.getD p.1 0) (lons.getD p.2 0)).map
      (fun a => (p.1, a.1, p.2, a.2)))

/-- The configured maximum orb for an aspect name (`ASPECT_ORBS[name]`). -/
def maxOrb (nm : String) : ℚ :=
  (((aspectCatalog.find? (fun c => decide (c.1 = nm))).map (fun c => c.2.2)).getD 0)

-- ---------------------------------------------------------------------------
-- House table rendering (`_compute_planets` points + `_fmt_houses`)
-- ---------------------------------------------------------------------------

/-- The chart points consumed by `_fmt_houses`: the 12 raw house cusps and
the raw Ascendant/Midheaven longitudes returned by `swe.houses_ex`
(`_compute_planets` reduces each mod 360 before deriving sign and degree
string). -/
structure HouseData where
  cusps : Fin 12 → ℚ
  asc : ℚ
  mc : ℚ

/-- The lines of `_fmt_houses`, with sign and degree string derived exactly
as `_compute_planets` stores them (`_sign_of(lon % 360)`,
`_deg_to_dms_str(lon % 360)`). -/
def fmtHousesLines (hd : HouseData) : List String :=
  let ascSign := signOf (wrap360 hd.asc)
  let mcSign := signOf (wrap360 hd.mc)
  let mcDeg := degToDmsStr (wrap360 hd.mc)
  ["",
   "House positions (Placidus)",
   "Ascendant\t" ++ ascSign ++ "\t" ++ degToDmsStr (wrap360 hd.asc),
   "2nd House\t" ++ signOf (wrap360 (hd.cusps 1)) ++ "\t"
     ++ degToDmsStr (wrap360 (hd.cusps 1)),
   "3rd House\t" ++ signOf (wrap360 (hd.cusps 2)) ++ "\t"
     ++ degToDmsStr (wrap360 (hd.cusps 2)),
   "Imum Coeli\t" ++ mcSign ++ "\t" ++ mcDeg,
   "5th House\t" ++ signOf (wrap360 (hd.cusps 4)) ++ "\t"
     ++ degToDmsStr (wrap360 (hd.cusps 4)),
   "6th House\t" ++ signOf (wrap360 (hd.cusps 5)) ++ "\t"
     ++ degToDmsStr (wrap360 (hd.cusps 5)),
   "Descendant\t" ++ SIGNS.getD ((SIGNS.indexOf ascSign + 6) % 12) "" ++ "\t"
     ++ degToDmsStr (wrap360 (hd.cusps 6)),
   "8th House\t" ++ signOf (wrap360 (hd.cusps 7)) ++ "\t"
     ++ degToDmsStr (wrap360 (hd.cusps 7)),
   "9th House\t" ++ signOf (wrap360 (hd.cusps 8)) ++ "\t"
     ++ degToDmsStr (wrap360 (hd.cusps 8)),
   "Medium Coeli\t" ++ mcSign ++ "\t" ++ mcDeg,
   "11th House\t" ++ signOf (wrap360 (hd.cusps 10)) ++ "\t"
     ++ degToDmsStr (wrap360 (hd.cusps 10)),
   "12th House\t" ++ signOf (wrap360 (hd.cusps 11)) ++ "\t"
     ++ degToDmsStr (wrap360 (hd.cusps 11))]

/-- The failing input for C1: Midheaven at 0° (Aries), the 4th house cusp —
the anti-Midheaven — at 180° (Libra). -/
def hd0 : HouseData :=
  { cusps := fun i => if (i : ℕ) = 3 then 180 else 30 * ((i : ℕ) : ℚ),
    asc := 0, mc := 0 }

-- ---------------------------------------------------------------------------
-- `formatting.py`: the generic and BR text renderers
-- ---------------------------------------------------------------------------

/-- Embeds `SIGNS_PT.get(s, s)`: the sign-translation lookup with the key itself as
default. Every entry of `SIGNS_PT` maps a sign name to itself. -/
def signsPTget (s : String) : String :=
  if s = "Aries" then "Aries" else if s = "Taurus" then "Taurus"
  else if s = "Gemini" then "Gemini" else if s = "Cancer" then "Cancer"
  else if s = "Leo" then "Leo" else if s = "Virgo" then "Virgo"
  else if s = "Libra" then "Libra" else if s = "Scorpio" then "Scorpio"
  else if s = "Sagittarius" then "Sagittarius"
  else if s = "Capricorn" then "Capricorn"
  else if s = "Aquarius" then "Aquarius" else if s = "Pisces" then "Pisces"
  else s

/-- One row of the `planets` payload list, with the fields `_motion_from_row`
inspects: an optional ready-made `motion` string, the retro-flag family
(summarized as an optional boolean), and an optional `speed`. -/
structure PlanetRow where
  planet : String
  sign : String
  degree : String
  motion : Option String
  retroFlag : Option Bool
  speed : Option ℚ

/-- The flag/speed fallback of `_motion_from_row`. -/
def motionFallback (r : PlanetRow) : String :=
  match r.retroFlag with
  | some true => "retrograde"
  | _ =>
    match r.speed with
    | some sp => if sp < 0 then "retrograde" else "direct"
    | none => "direct"

/-- Embeds `_motion_from_row`: a non-blank `motion` string wins, else flags, else
the sign of `speed`, else `direct`. -/
def motionFromRow (r : PlanetRow) : String :=
  match r.motion with
  | some m => if m.trim = "" then motionFallback r else m
  | none => motionFallback r

/-- Embeds `_pad(text, width)`. -/
def padTo (s : String) (w : ℕ) : String :=
  s ++ String.mk (List.replicate (w - s.length) ' ')

/-- One row of the `houses` payload list. -/
structure HouseRow where
  house : String
  sign : String
  degree : String

/-- One row of the `aspects` payload list. -/
structure AspectRow where
  p1 : String
  type : String
  p2 : String
  orb : String

/-- The resolved input payload of `build_text_output` /
`build_text_output_br` (header fields after the defensive multi-key
lookups; `sidTime = none` when no sidereal-time key holds a truthy value). -/
structure Payload where
  placeStr : String
  utStr : String
  coordsStr : String
  sidTime : Option String
  planets : List PlanetRow
  houses : List HouseRow
  aspects : List AspectRow

/-- Embeds `_get_sidereal_time`: the found value, `"-"` otherwise. -/
def sidTimeDisplay (p : Payload) : String := p.sidTime.getD "-"

/-- Embeds `_render_header(root, translate_signs)`: note the function receives the
translation flag but never uses it, exactly as in the source. -/
def renderHeader (p : Payload) (translateSigns : Bool) : List String :=
  ["Astrological Data used for Personal Portrait Short Horoscope",
   "for Ethiene Herbst (female)"] ++
  (if p.placeStr ≠ "" ∨ p.utStr ≠ "" then
    ["in " ++ p.placeStr ++ "\tU.T.:\t" ++ p.utStr] else []) ++
  (if p.coordsStr ≠ "" ∨ sidTimeDisplay p ≠ "" then
    [p.coordsStr ++ "\tsid. time:\t" ++ sidTimeDisplay p] else []) ++
  [""]

/-- Embeds `_render_planet_rows`. -/
def renderPlanetRows (ps : List PlanetRow) (translateSigns : Bool) : List String :=
  (padTo "planet" 8 ++ padTo "sign" 11 ++ padTo "degree" 12 ++ padTo "motion" 10) ::
  ps.map (fun r =>
    padTo r.planet 8 ++
    padTo (if translateSigns then signsPTget r.sign else r.sign) 11 ++
    padTo r.degree 12 ++ padTo (motionFromRow r) 10)

/-- Embeds `_render_house_rows`. -/
def renderHouseRows (hs : List HouseRow) (translateSigns : Bool) : List String :=
  "House positions (Placidus)" ::
  hs.map (fun h =>
    padTo h.house 14 ++
    padTo (if translateSigns then signsPTget h.sign else h.sign) 11 ++
    padTo h.degree 8)

/-- The aspects section appended by both builders (identical in the two). -/
def aspectSection (asps : List AspectRow) : List String :=
  if asps.isEmpty then []
  else
    "Major aspects" ::
      (asps.map (fun a => a.p1 ++ " " ++ a.type ++ " " ++ a.p2 ++ " " ++ a.orb))
      ++ [""]

/-- Embeds `build_text_output(payload)`, the generic variant. -/
def buildTextOutput (p : Payload) : String :=
  String.intercalate "\n"
    (renderHeader p false ++ ["Planetary positions"]
      ++ renderPlanetRows p.planets false ++ [""]
      ++ renderHouseRows p.houses false ++ [""]
      ++ aspectSection p.aspects) ++ "\n"

/-- Embeds `build_text_output_br(payload)`, the BR variant with
`translate_signs=True` everywhere. -/
def buildTextOutputBr (p : Payload) : String :=
  String.intercalate "\n"
    (renderHeader p true ++ ["Planetary positions"]
      ++ renderPlanetRows p.planets true ++ [""]
      ++ renderHouseRows p.houses true ++ [""]
      ++ aspectSection p.aspects) ++ "\n"

-- ---------------------------------------------------------------------------
-- `compute_chart`: the U.T. header time fields
-- ---------------------------------------------------------------------------

/-- The `(ut_h, ut_m)` fields of the `U.T.` header string in
`compute_chart`: `ut_hours = hour + minute/60 - tz_offset`, floored hour,
rounded minute with a 60-minute carry — and no reduction modulo 24. -/
def utFields (hour minute : ℤ) (tz : ℚ) : ℤ × ℤ :=
  let utHours : ℚ := (hour : ℚ) + (minute : ℚ) / 60 - tz
  let uth := ⌊utHours⌋
  let utm := pyRound ((utHours - uth) * 60)
  (if utm = 60 then uth + 1 else uth, if utm = 60 then 0 else utm)

/-- The rendered `U.T.` string `f"{ut_h:02d}:{ut_m:02d}"`. -/
def utDisplay (hour minute : ℤ) (tz : ℚ) : String :=
  pad2 (utFields hour minute tz).1 ++ ":" ++ pad2 (utFields hour minute tz).2

-- ---------------------------------------------------------------------------
-- Basic facts about qmod / wrap360 / shortestSignedDiff
-- ---------------------------------------------------------------------------

theorem qmod_nonneg (a : ℚ) {b : ℚ} (hb : 0 < b) : 0 ≤ qmod a b := by
  unfold qmod
  have h := Int.floor_le (a / b)
  have : (⌊a / b⌋ : ℚ) * b ≤ a / b * b := by
    exact mul_le_mul_of_nonneg_right h (le_of_lt hb)
  rw [div_mul_cancel₀ a (ne_of_gt hb)] at this
  nlinarith

theorem qmod_lt (a : ℚ) {b : ℚ} (hb : 0 < b) : qmod a b < b := by
  unfold qmod
  have h := Int.lt_floor_add_one (a / b)
  have : a / b * b < ((⌊a / b⌋ : ℚ) + 1) * b := by
    exact mul_lt_mul_of_pos_right h hb
  rw [div_mul_cancel₀ a (ne_of_gt hb)] at this
  nlinarith

/-- Evaluation rule: if `a = b * k + r` with `0 ≤ r < b`, then `qmod a b = r`. -/
theorem qmod_eq {a b r : ℚ} {k : ℤ} (h : a = b * k + r) (h0 : 0 ≤ r) (h1 : r < b) :
    qmod a b = r := by
  have hb : 0 < b := lt_of_le_of_lt h0 h1
  have hfl : ⌊a / b⌋ = k := by
    have hab : a / b = k + r / b := by
      rw [h]; field_simp; ring
    rw [hab]
    have h2 : 0 ≤ r / b := div_nonneg h0 (le_of_lt hb)
    have h3 : r / b < 1 := (div_lt_one hb).mpr h1
    rw [add_comm, Int.floor_add_int]
    have : ⌊r / b⌋ = 0 := by
      rw [Int.floor_eq_iff]; simp [h2, h3]
    omega
  unfold qmod
  rw [hfl, h]; ring

/-- Adding an integer multiple of the modulus does not change `qmod`. -/
theorem qmod_add_int_mul (a b : ℚ) (k : ℤ) (hb : 0 < b) :
    qmod (a + b * k) b = qmod a b := by
  unfold qmod
  have : (a + b * k) / b = a / b + k := by field_simp; ring
  rw [this, Int.floor_add_int]
  push_cast
  ring

theorem wrap360_nonneg (a : ℚ) : 0 ≤ wrap360 a := qmod_nonneg a (by norm_num)

theorem wrap360_lt (a : ℚ) : wrap360 a < 360 := qmod_lt a (by norm_num)

theorem shortestSignedDiff_self (a : ℚ) : shortestSignedDiff a a = 0 := by
  unfold shortestSignedDiff
  rw [qmod_eq (k := 0) (r := 180) (by ring) (by norm_num) (by norm_num)]
  ring

/-- The function `shortestSignedDiff` only depends on the wrapped arguments. -/
theorem shortestSignedDiff_wrap (a b : ℚ) :
    shortestSignedDiff (wrap360 a) (wrap360 b) = shortestSignedDiff a b := by
  unfold shortestSignedDiff wrap360 qmod
  have h : a - 360 * ⌊a / 360⌋ - (b - 360 * ⌊b / 360⌋) + 180
      = (a - b + 180) + 360 * (((⌊b / 360⌋ - ⌊a / 360⌋ : ℤ) : ℚ)) := by push_cast; ring
  calc qmod (a - 360 * ⌊a / 360⌋ - (b - 360 * ⌊b / 360⌋) + 180) 360 - 180
      = qmod ((a - b + 180) + 360 * (((⌊b / 360⌋ - ⌊a / 360⌋ : ℤ) : ℚ))) 360 - 180 := by
        rw [h]
    _ = qmod (a - b + 180) 360 - 180 := by
        rw [qmod_add_int_mul _ _ _ (by norm_num)]

/-- If the plain difference `a - b` already lies in `[-180, 180)`, the
wrapped signed difference is just `a - b`. -/
theorem shortestSignedDiff_eq_sub {a b : ℚ} (h0 : -180 ≤ a - b) (h1 : a - b < 180) :
    shortestSignedDiff a b = a - b := by
  unfold shortestSignedDiff
  rw [qmod_eq (k := 0) (r := a - b + 180) (by ring) (by linarith) (by linarith)]
  ring

-- ---------------------------------------------------------------------------
-- Python round (banker's rounding) facts
-- ---------------------------------------------------------------------------

theorem pyRound_ge_floor (x : ℚ) : ⌊x⌋ ≤ pyRound x := by
  simp only [pyRound]
  split_ifs <;> omega

theorem pyRound_le_floor_add_one (x : ℚ) : pyRound x ≤ ⌊x⌋ + 1 := by
  simp only [pyRound]
  split_ifs <;> omega

theorem pyRound_nonneg {x : ℚ} (h : 0 ≤ x) : 0 ≤ pyRound x := by
  have h0 : 0 ≤ ⌊x⌋ := Int.floor_nonneg.mpr h
  have := pyRound_ge_floor x
  omega

theorem pyRound_intCast (M : ℤ) : pyRound (M : ℚ) = M := by
  simp only [pyRound, Int.floor_intCast]
  norm_num

theorem pyRound_le_int {x : ℚ} {M : ℤ} (h : x ≤ (M : ℚ)) : pyRound x ≤ M := by
  have hfl : ⌊x⌋ ≤ M := by
    have := Int.floor_le_floor h
    rwa [Int.floor_intCast] at this
  rcases lt_or_eq_of_le hfl with hlt | heq
  · have := pyRound_le_floor_add_one x
    omega
  · have hx : x = (M : ℚ) := by
      refine le_antisymm h ?_
      calc (M : ℚ) = (⌊x⌋ : ℚ) := by exact_mod_cast heq.symm
        _ ≤ x := Int.floor_le x
    rw [hx, pyRound_intCast]

theorem pyRound_err (x : ℚ) : |(pyRound x : ℚ) - x| ≤ 1/2 := by
  have h0 : (⌊x⌋ : ℚ) ≤ x := Int.floor_le x
  have h1 : x < ⌊x⌋ + 1 := Int.lt_floor_add_one x
  simp only [pyRound]
  rw [abs_le]
  split_ifs with hgt hlt heven <;> constructor <;> push_cast <;> linarith

theorem signIdx_lt (lon : ℚ) : signIdx lon < 12 := by
  unfold signIdx
  have h1 : wrap360 lon / 30 < 12 := by
    have := wrap360_lt lon
    linarith
  have h2 : ⌊wrap360 lon / 30⌋ < 12 := Int.floor_lt.mpr (by exact_mod_cast h1)
  omega

/-- Self-evaluation of `wrap360` on an already-normalized value. -/
theorem wrap360_eq_self {a : ℚ} (h0 : 0 ≤ a) (h1 : a < 360) : wrap360 a = a :=
  qmod_eq (k := 0) (by push_cast; ring) h0 h1

theorem houseScanAux_cases (cusps : Fin 12 → ℚ) (x : ℚ) :
    ∀ L : List (Fin 12),
      (houseScanAux cusps x L = 12 ∧ ∀ j ∈ L, insideHouse cusps x j = false) ∨
      (∃ j ∈ L, insideHouse cusps x j = true ∧ houseScanAux cusps x L = (j : ℕ) + 1 ∧
        ∃ L₁ L₂, L = L₁ ++ j :: L₂ ∧ ∀ k ∈ L₁, insideHouse cusps x k = false) := by
  intro L
  induction L with
  | nil => exact Or.inl ⟨rfl, by intro j hj; cases hj⟩
  | cons i rest ih =>
    by_cases hp : insideHouse cusps x i = true
    · refine Or.inr ⟨i, List.mem_cons_self i rest, hp, ?_, [], rest, rfl, ?_⟩
      · simp [houseScanAux, hp]
      · intro k hk; cases hk
    · have hscan : houseScanAux cusps x (i :: rest) = houseScanAux cusps x rest := by
        simp [houseScanAux, hp]
      rcases ih with ⟨h12, hall⟩ | ⟨j, hj, hpj, hsc, L₁, L₂, heq, hfalse⟩
      · refine Or.inl ⟨by rw [hscan, h12], ?_⟩
        intro j hj
        rcases List.mem_cons.mp hj with rfl | hjr
        · exact eq_false_of_ne_true hp
        · exact hall j hjr
      · refine Or.inr ⟨j, List.mem_cons_of_mem i hj, hpj, by rw [hscan, hsc],
          i :: L₁, L₂, by rw [heq]; rfl, ?_⟩
        intro k hk
        rcases List.mem_cons.mp hk with rfl | hkr
        · exact eq_false_of_ne_true hp
        · exact hfalse k hkr

theorem mem_prefix_of_lt {j : Fin 12} {L₁ L₂ : List (Fin 12)}
    (heq : List.finRange 12 = L₁ ++ j :: L₂) :
    ∀ k : Fin 12, k < j → k ∈ L₁ := by
  intro k hk
  have hmem : k ∈ L₁ ++ j :: L₂ := by rw [← heq]; exact List.mem_finRange k
  have hpw : (L₁ ++ j :: L₂).Pairwise (· < ·) := by
    rw [← heq]; exact List.pairwise_lt_finRange 12
  rcases List.mem_append.mp hmem with h1 | h2
  · exact h1
  · rcases List.mem_cons.mp h2 with rfl | h3
    · exact absurd hk (lt_irrefl _)
    · have hjk : j < k :=
        (List.pairwise_cons.mp (List.pairwise_append.mp hpw).2.1).1 k h3
      exact absurd hk (asymm hjk)

/-- C3: for every 12-cusp configuration and query longitude, `house_of`
returns a house index in 1..12; it returns `i+1` exactly when house `i` is
the first (in scan order 0..11) whose wrap-aware half-open cusp interval
contains the wrapped longitude, or when `i = 11` and no interval matches
(the documented fallback to house 12). -/
theorem claim_C3 (cusps : Fin 12 → ℚ) (l : ℚ) :
    (1 ≤ houseOf cusps l ∧ houseOf cusps l ≤ 12) ∧
    (∀ i : Fin 12, houseOf cusps l = (i : ℕ) + 1 ↔
      ((insideHouse cusps (wrap360 l) i = true ∧
          ∀ k : Fin 12, k < i → insideHouse cusps (wrap360 l) k = false) ∨
        ((i : ℕ) = 11 ∧ ∀ k : Fin 12, insideHouse cusps (wrap360 l) k = false))) := by
  have hcases := houseScanAux_cases cusps (wrap360 l) (List.finRange 12)
  constructor
  · rcases hcases with ⟨h12, _⟩ | ⟨j, _, _, hsc, _⟩
    · unfold houseOf; rw [h12]; omega
    · unfold houseOf; rw [hsc]
      have := j.isLt
      omega
  · intro i
    constructor
    · intro hEq
      rcases hcases with ⟨h12, hall⟩ | ⟨j, _, hpj, hsc, L₁, L₂, heq, hfalse⟩
      · refine Or.inr ⟨?_, fun k => hall k (List.mem_finRange k)⟩
        unfold houseOf at hEq
        rw [h12] at hEq
        omega
      · unfold houseOf at hEq
        rw [hsc] at hEq
        have hji : j = i := Fin.ext (by omega)
        subst hji
        refine Or.inl ⟨hpj, ?_⟩
        intro k hk
        exact hfalse k (mem_prefix_of_lt heq k hk)
    · intro hOr
      rcases hcases with ⟨h12, hall⟩ | ⟨j, _, hpj, hsc, L₁, L₂, heq, hfalse⟩
      · rcases hOr with ⟨hpi, _⟩ | ⟨hi11, _⟩
        · exact absurd hpi (by rw [hall i (List.mem_finRange i)]; simp)
        · unfold houseOf; rw [h12]; omega
      · rcases hOr with ⟨hpi, hbefore⟩ | ⟨hi11, hnone⟩
        · have hji : j = i := by
            rcases lt_trichotomy j i with hlt | heq' | hgt
            · exact absurd hpj (by rw [hbefore j hlt]; simp)
            · exact heq'
            · exact absurd hpi (by rw [hfalse i (mem_prefix_of_lt heq i hgt)]; simp)
          subst hji
          unfold houseOf
          rw [hsc]
        · exact absurd hpj (by rw [hnone j]; simp)

/-- Witness for C3: with cusps at multiples of 30°, longitude 45° lands in
house 2, consistent with the interval test. -/
theorem claim_C3_witness :
    houseOf cusps0 45 = 2 ∧ 1 ≤ houseOf cusps0 45 ∧ houseOf cusps0 45 ≤ 12 := by
  have h45 : wrap360 (45 : ℚ) = 45 := wrap360_eq_self (by norm_num) (by norm_num)
  have e1 : insideHouse cusps0 (wrap360 45) ⟨1, by omega⟩ = true := by
    simp only [insideHouse, cusps0, h45]
    rw [wrap360_eq_self (by norm_num) (by norm_num),
      wrap360_eq_self (by norm_num) (by norm_num)]
    norm_num
  have e0 : ∀ k : Fin 12, k < ⟨1, by omega⟩ → insideHouse cusps0 (wrap360 45) k = false := by
    intro k hk
    have h1 : (k : ℕ) < 1 := hk
    rcases k with ⟨kv, hkv⟩
    simp only [Fin.val_mk] at h1
    have hk0 : kv = 0 := by omega
    subst hk0
    simp only [insideHouse, cusps0, h45, Fin.add_def]
    norm_num
    rw [wrap360_eq_self (by norm_num) (by norm_num),
      wrap360_eq_self (by norm_num) (by norm_num)]
    norm_num
  have hmain := claim_C3 cusps0 45
  have h2 : houseOf cusps0 45 = 2 :=
    (hmain.2 ⟨1, by omega⟩).mpr (Or.inl ⟨e1, e0⟩)
  exact ⟨h2, hmain.1.1, hmain.1.2⟩

/-- C4, counterexample: the longitude function `t ↦ t / 1000000` is strictly
increasing with time, yet the classifier returns Stationary (its 24-hour
probe difference `10⁻⁶` degrees is below `ε = 10⁻⁴`), not Direct. -/
theorem claim_C4_counterexample :
    StrictMono (fun t : ℚ => t / 1000000) ∧
      isRetrograde (fun t : ℚ => t / 1000000) 0 = "stationary" ∧
      ("stationary" : String) ≠ "direct" := by
  refine ⟨fun a b hab => by dsimp only; linarith, ?_, by decide⟩
  have hp : wrap360 ((0 + STEP_DAYS) / 1000000) = 1/2000000 := by
    rw [show ((0 + STEP_DAYS) / 1000000 : ℚ) = 1/2000000 by norm_num [STEP_DAYS]]
    exact wrap360_eq_self (by norm_num) (by norm_num)
  have hm : wrap360 ((0 - STEP_DAYS) / 1000000) = 719999999/2000000 := by
    rw [show ((0 - STEP_DAYS) / 1000000 : ℚ) = -(1/2000000) by norm_num [STEP_DAYS]]
    unfold wrap360
    rw [qmod_eq (k := -1) (r := 719999999/2000000) (by norm_num) (by norm_num)
      (by norm_num)]
  have hs : motionSign (fun t : ℚ => t / 1000000) 0 = 1/1000000 := by
    unfold motionSign
    dsimp only
    rw [hp, hm]
    unfold shortestSignedDiff
    rw [qmod_eq (k := -1) (r := 180 + 1/1000000) (by norm_num) (by norm_num)
      (by norm_num)]
    norm_num
  simp only [isRetrograde, hs]
  norm_num [EPS_DEG]

/-- C4, amended: a strictly increasing longitude whose change over the
24-hour probe window lies in `(ε, 180)` is classified Direct, a strictly
decreasing one whose magnitude of change lies in `(ε, 180)` is classified
Retrograde, and a constant longitude is classified Stationary. -/
theorem claim_C4_amended (f : ℚ → ℚ) (t : ℚ) :
    (StrictMono f → EPS_DEG < f (t + STEP_DAYS) - f (t - STEP_DAYS) →
      f (t + STEP_DAYS) - f (t - STEP_DAYS) < 180 → isRetrograde f t = "direct") ∧
    (StrictAnti f → EPS_DEG < f (t - STEP_DAYS) - f (t + STEP_DAYS) →
      f (t - STEP_DAYS) - f (t + STEP_DAYS) < 180 → isRetrograde f t = "retrograde") ∧
    ((∀ u : ℚ, f u = f t) → isRetrograde f t = "stationary") := by
  have hwrap : motionSign f t = shortestSignedDiff (f (t + STEP_DAYS)) (f (t - STEP_DAYS)) := by
    unfold motionSign
    exact shortestSignedDiff_wrap _ _
  refine ⟨?_, ?_, ?_⟩
  · intro _ h1 h2
    have hval : motionSign f t = f (t + STEP_DAYS) - f (t - STEP_DAYS) := by
      rw [hwrap]
      exact shortestSignedDiff_eq_sub (by unfold EPS_DEG at h1; linarith) h2
    simp only [isRetrograde, hval]
    rw [if_pos h1]
  · intro _ h1 h2
    have hval : motionSign f t = f (t + STEP_DAYS) - f (t - STEP_DAYS) := by
      rw [hwrap]
      exact shortestSignedDiff_eq_sub (by linarith) (by unfold EPS_DEG at h1; linarith)
    have hlt : motionSign f t < -EPS_DEG := by rw [hval]; linarith
    have hngt : ¬(motionSign f t > EPS_DEG) := by
      unfold EPS_DEG at *; push_neg; linarith
    simp only [isRetrograde]
    rw [if_neg hngt, if_pos hlt]
  · intro hconst
    have hval : motionSign f t = 0 := by
      unfold motionSign
      rw [hconst (t + STEP_DAYS), hconst (t - STEP_DAYS)]
      exact shortestSignedDiff_self _
    simp only [isRetrograde, hval]
    norm_num [EPS_DEG]

/-- Witness for C4 (amended) on three synthetic providers: slope `+10`,
slope `-10`, and a constant. -/
theorem claim_C4_witness :
    isRetrograde (fun u : ℚ => 10 * u) 0 = "direct" ∧
    isRetrograde (fun u : ℚ => -10 * u) 0 = "retrograde" ∧
    isRetrograde (fun _ : ℚ => 42) 0 = "stationary" :=
  ⟨(claim_C4_amended (fun u : ℚ => 10 * u) 0).1
      (fun a b hab => by dsimp only; linarith)
      (by norm_num [STEP_DAYS, EPS_DEG]) (by norm_num [STEP_DAYS]),
    (claim_C4_amended (fun u : ℚ => -10 * u) 0).2.1
      (fun a b hab => by dsimp only; linarith)
      (by norm_num [STEP_DAYS, EPS_DEG]) (by norm_num [STEP_DAYS]),
    (claim_C4_amended (fun _ : ℚ => 42) 0).2.2 (fun _ => rfl)⟩

theorem round2_zero : round2 0 = 0 := by
  unfold round2
  rw [show ((0 : ℚ) * 100) = ((0 : ℤ) : ℚ) by norm_num, pyRound_intCast]
  norm_num

theorem round2_nonneg {x : ℚ} (h : 0 ≤ x) : 0 ≤ round2 x := by
  unfold round2
  have h1 : 0 ≤ pyRound (x * 100) := pyRound_nonneg (by linarith)
  have h2 : (0 : ℚ) ≤ (pyRound (x * 100) : ℚ) := by exact_mod_cast h1
  linarith

theorem round2_le_int {x : ℚ} {M : ℤ} (h : x ≤ (M : ℚ)) : round2 x ≤ (M : ℚ) := by
  unfold round2
  have h1 : x * 100 ≤ ((M * 100 : ℤ) : ℚ) := by push_cast; linarith
  have h2 := pyRound_le_int h1
  have h3 : ((pyRound (x * 100) : ℤ) : ℚ) ≤ ((M * 100 : ℤ) : ℚ) := by exact_mod_cast h2
  push_cast at h3
  linarith

theorem allPairs_mem {n : ℕ} {p : ℕ × ℕ} (hp : p ∈ allPairs n) :
    p.1 < p.2 ∧ p.2 < n := by
  unfold allPairs at hp
  rw [List.mem_flatMap] at hp
  obtain ⟨i, _, hmem⟩ := hp
  rw [List.mem_map] at hmem
  obtain ⟨j, hj, rfl⟩ := hmem
  rw [List.mem_filter] at hj
  exact ⟨by simpa using hj.2, by simpa using List.mem_range.mp hj.1⟩

theorem pairAspects_names_nodup (lonA lonB : ℚ) :
    ((pairAspects lonA lonB).map (fun a => a.1)).Nodup := by
  have hcat : (aspectCatalog.map (fun c => c.1)).Nodup := by decide
  unfold pairAspects
  rw [List.map_map]
  exact ((List.filter_sublist aspectCatalog).map (fun c => c.1)).nodup hcat

theorem allPairs_nodup (n : ℕ) : (allPairs n).Nodup := by
  unfold allPairs
  rw [List.nodup_flatMap]
  constructor
  · intro i _
    refine List.Nodup.map ?_ ((List.filter_sublist _).nodup (List.nodup_range n))
    intro a b hab
    simpa using congrArg Prod.snd hab
  · refine List.Pairwise.imp ?_ (List.nodup_range n)
    intro i₁ i₂ hne x hx1 hx2
    rw [List.mem_map] at hx1 hx2
    obtain ⟨j₁, _, rfl⟩ := hx1
    obtain ⟨j₂, _, heq⟩ := hx2
    exact hne (congrArg Prod.fst heq).symm

/-- C5: for bodies exactly 90° apart (in wrapped angular separation) the
aspect finder reports exactly one aspect for the pair — a Square with orb
0.00 — and for bodies exactly 150° apart exactly a Quincunx with orb 0.00. -/
theorem claim_C5 (lonA lonB : ℚ) :
    (|shortestSignedDiff lonA lonB| = 90 →
      findMajorAspects [lonA, lonB] = [(0, "Square", 1, 0)]) ∧
    (|shortestSignedDiff lonA lonB| = 150 →
      findMajorAspects [lonA, lonB] = [(0, "Quincunx", 1, 0)]) := by
  have hap : allPairs 2 = [(0, 1)] := by decide
  have hfm : ∀ x : String × ℚ, pairAspects lonA lonB = [x] →
      findMajorAspects [lonA, lonB] = [(0, x.1, 1, x.2)] := by
    intro x hx
    simp [findMajorAspects, hap, hx]
  constructor <;> intro hdiff
  · refine hfm ("Square", 0) ?_
    simp only [pairAspects, hdiff]
    norm_num [aspectCatalog, List.filter, round2_zero]
  · refine hfm ("Quincunx", 0) ?_
    simp only [pairAspects, hdiff]
    norm_num [aspectCatalog, List.filter, round2_zero]

/-- Witness for C5 at longitudes `(90, 0)` and `(150, 0)`. -/
theorem claim_C5_witness :
    findMajorAspects [90, 0] = [(0, "Square", 1, 0)] ∧
    findMajorAspects [150, 0] = [(0, "Quincunx", 1, 0)] := by
  constructor
  · refine (claim_C5 90 0).1 ?_
    have h : shortestSignedDiff 90 0 = 90 := by
      unfold shortestSignedDiff
      rw [qmod_eq (k := 0) (r := 270) (by norm_num) (by norm_num) (by norm_num)]
      norm_num
    rw [h]; norm_num
  · refine (claim_C5 150 0).2 ?_
    have h : shortestSignedDiff 150 0 = 150 := by
      unfold shortestSignedDiff
      rw [qmod_eq (k := 0) (r := 330) (by norm_num) (by norm_num) (by norm_num)]
      norm_num
    rw [h]; norm_num

/-- C6: every match emitted by the aspect finder has a non-negative orb
bounded by the configured max orb of its aspect kind, its first body index
strictly precedes its second, and no (pair, kind) combination is emitted
twice. -/
theorem claim_C6 (lons : List ℚ) :
    (∀ m ∈ findMajorAspects lons,
      0 ≤ m.2.2.2 ∧ m.2.2.2 ≤ maxOrb m.2.1 ∧ m.1 < m.2.2.1) ∧
    ((findMajorAspects lons).map (fun m => (m.1, m.2.2.1, m.2.1))).Nodup := by
  have hcatmax : ∀ c ∈ aspectCatalog, maxOrb c.1 = c.2.2 := by decide
  constructor
  · intro m hm
    unfold findMajorAspects at hm
    rw [List.mem_flatMap] at hm
    obtain ⟨p, hp, hmm⟩ := hm
    rw [List.mem_map] at hmm
    obtain ⟨a, ha, rfl⟩ := hmm
    obtain ⟨hij, _⟩ := allPairs_mem hp
    simp only [pairAspects] at ha
    rw [List.mem_map] at ha
    obtain ⟨c, hc, rfl⟩ := ha
    rw [List.mem_filter] at hc
    obtain ⟨hcat, hcond⟩ := hc
    have hcond' := of_decide_eq_true hcond
    refine ⟨round2_nonneg (abs_nonneg _), ?_, hij⟩
    obtain ⟨M, hM⟩ : ∃ M : ℤ, c.2.2 = (M : ℚ) := by
      fin_cases hcat
      exacts [⟨8, by norm_num⟩, ⟨8, by norm_num⟩, ⟨7, by norm_num⟩,
        ⟨6, by norm_num⟩, ⟨4, by norm_num⟩, ⟨3, by norm_num⟩]
    rw [hcatmax c hcat, hM]
    rw [hM] at hcond'
    exact round2_le_int hcond'
  · have hmapfm : (findMajorAspects lons).map (fun m => (m.1, m.2.2.1, m.2.1))
        = (allPairs lons.length).flatMap
            (fun p => (pairAspects (lons.getD p.1 0) (lons.getD p.2 0)).map
              (fun a => (p.1, p.2, a.1))) := by
      unfold findMajorAspects
      rw [List.map_flatMap]
      congr 1
      funext p
      rw [List.map_map]
      rfl
    rw [hmapfm, List.nodup_flatMap]
    constructor
    · intro p _
      have hnames := pairAspects_names_nodup (lons.getD p.1 0) (lons.getD p.2 0)
      have heq : (pairAspects (lons.getD p.1 0) (lons.getD p.2 0)).map
            (fun a => (p.1, p.2, a.1))
          = ((pairAspects (lons.getD p.1 0) (lons.getD p.2 0)).map
              (fun a => a.1)).map (fun nm => (p.1, p.2, nm)) := by
        rw [List.map_map]
        rfl
      rw [heq]
      refine hnames.map ?_
      intro a b hab
      simpa using hab
    · refine List.Pairwise.imp ?_ (allPairs_nodup lons.length)
      intro p q hne x hx1 hx2
      rw [List.mem_map] at hx1 hx2
      obtain ⟨a, _, rfl⟩ := hx1
      obtain ⟨b, _, heq⟩ := hx2
      refine hne ?_
      have h1 := congrArg Prod.fst heq
      have h2 := congrArg (fun y => y.2.1) heq
      simp only at h1 h2
      exact Prod.ext h1.symm h2.symm

/-- Witness for C6 on the concrete longitudes `[0, 90]`, whose single match
is `(0, Square, 1, orb 0)`. -/
theorem claim_C6_witness :
    (0 : ℚ) ≤ ((0 : ℕ), "Square", (1 : ℕ), (0 : ℚ)).2.2.2 ∧
    ((0 : ℕ), "Square", (1 : ℕ), (0 : ℚ)).2.2.2 ≤ maxOrb "Square" ∧
    (0 : ℕ) < 1 ∧
    ((findMajorAspects [0, 90]).map (fun m => (m.1, m.2.2.1, m.2.1))).Nodup := by
  have hd : |shortestSignedDiff 0 90| = 90 := by
    have h : shortestSignedDiff 0 90 = -90 := by
      unfold shortestSignedDiff
      rw [qmod_eq (k := 0) (r := 90) (by norm_num) (by norm_num) (by norm_num)]
      norm_num
    rw [h]; norm_num
  have hpa : pairAspects 0 90 = [("Square", 0)] := by
    simp only [pairAspects, hd]
    norm_num [aspectCatalog, List.filter, round2_zero]
  have hap : allPairs 2 = [(0, 1)] := by decide
  have hfm : findMajorAspects [0, 90] = [((0 : ℕ), "Square", (1 : ℕ), (0 : ℚ))] := by
    simp [findMajorAspects, hap, hpa]
  have hmem : ((0 : ℕ), "Square", (1 : ℕ), (0 : ℚ)) ∈ findMajorAspects [0, 90] := by
    rw [hfm]
    exact List.mem_singleton.mpr rfl
  have h := (claim_C6 [0, 90]).1 _ hmem
  exact ⟨h.1, h.2.1, h.2.2, (claim_C6 [0, 90]).2⟩

theorem qfloor_eq {q : ℚ} {n : ℤ} (h1 : (n : ℚ) ≤ q) (h2 : q < n + 1) : ⌊q⌋ = n :=
  Int.floor_eq_iff.mpr ⟨h1, h2⟩

theorem signIdx_eval {lon : ℚ} {k : ℕ} (h1 : (k : ℚ) * 30 ≤ wrap360 lon)
    (h2 : wrap360 lon < ((k : ℚ) + 1) * 30) : signIdx lon = k := by
  unfold signIdx
  have hf : ⌊wrap360 lon / 30⌋ = (k : ℤ) := by
    refine qfloor_eq ?_ ?_
    · rw [le_div_iff₀ (by norm_num : (0:ℚ) < 30)]
      exact_mod_cast h1
    · rw [div_lt_iff₀ (by norm_num : (0:ℚ) < 30)]
      push_cast
      exact_mod_cast h2
  rw [hf]
  simp

theorem signIdx_wrap (x : ℚ) : signIdx (wrap360 x) = signIdx x := by
  unfold signIdx
  rw [wrap360_eq_self (wrap360_nonneg x) (wrap360_lt x)]

theorem signs_indexOf_getD :
    ∀ k : Fin 12, SIGNS.indexOf (SIGNS.getD (k : ℕ) "") = (k : ℕ) := by decide

theorem pyRound_zero : pyRound 0 = 0 := by
  rw [show (0 : ℚ) = ((0 : ℤ) : ℚ) by norm_num]
  exact pyRound_intCast 0

theorem degToDMS_intCast (n : ℤ) : degToDMS ((n : ℚ)) = (n, 0, 0) := by
  have hmf : dmsMf ((n : ℚ)) = 0 := by
    unfold dmsMf
    rw [Int.floor_intCast]
    ring
  have hm : dmsM ((n : ℚ)) = 0 := by
    unfold dmsM
    rw [hmf]
    exact Int.floor_zero
  have hsf : dmsSf ((n : ℚ)) = 0 := by
    unfold dmsSf
    rw [hmf, hm]
    norm_num
  have hs : dmsS0 ((n : ℚ)) = 0 := by
    unfold dmsS0
    rw [hsf]
    exact pyRound_zero
  simp only [degToDMS, hs, hm, dmsD, Int.floor_intCast]
  norm_num

/-- C8: the Descendant row of the rendered house table carries the sign six
positions after the Ascendant's sign in the fixed 12-sign table, and the
degree string of the 7th house cusp. -/
theorem claim_C8 (hd : HouseData) :
    (fmtHousesLines hd).getD 8 ""
      = "Descendant\t" ++ SIGNS.getD ((signIdx hd.asc + 6) % 12) "" ++ "\t"
        ++ degToDmsStr (wrap360 (hd.cusps 6)) := by
  have hidx : SIGNS.indexOf (signOf (wrap360 hd.asc)) = signIdx hd.asc := by
    unfold signOf
    rw [signIdx_wrap]
    exact signs_indexOf_getD ⟨signIdx hd.asc, signIdx_lt hd.asc⟩
  simp only [fmtHousesLines, List.getD_cons_succ, List.getD_cons_zero, hidx]

/-- C1: evaluated at `hd0`, the rendered 'Imum Coeli' row shows the
Midheaven's own sign and degree (`Aries 0°00'00`, identical to the
'Medium Coeli' row), not the 4th house point's (`Libra`, `180°00'00`) as
the claim states. -/
theorem claim_C1 :
    (fmtHousesLines hd0).getD 5 "" = "Imum Coeli\tAries\t0°00'00" ∧
    (fmtHousesLines hd0).getD 11 "" = "Medium Coeli\tAries\t0°00'00" ∧
    signOf (wrap360 (hd0.cusps 3)) = "Libra" ∧
    degToDmsStr (wrap360 (hd0.cusps 3)) = "180°00'00" ∧
    ("Imum Coeli\tAries\t0°00'00" : String)
      ≠ "Imum Coeli\t" ++ "Libra" ++ "\t" ++ "180°00'00" := by
  have hmc : wrap360 hd0.mc = 0 := by
    show wrap360 0 = 0
    exact wrap360_eq_self (by norm_num) (by norm_num)
  have hc3 : hd0.cusps 3 = 180 := by
    have h3v : ((3 : Fin 12) : ℕ) = 3 := rfl
    simp [hd0, h3v]
  have hw3 : wrap360 (hd0.cusps 3) = 180 := by
    rw [hc3]
    exact wrap360_eq_self (by norm_num) (by norm_num)
  have hsign0 : signOf (0 : ℚ) = "Aries" := by
    unfold signOf
    rw [signIdx_eval (k := 0) (by rw [wrap360_eq_self] <;> norm_num)
      (by rw [wrap360_eq_self] <;> norm_num)]
    decide
  have hsign180 : signOf (180 : ℚ) = "Libra" := by
    unfold signOf
    rw [signIdx_eval (k := 6) (by rw [wrap360_eq_self] <;> norm_num)
      (by rw [wrap360_eq_self] <;> norm_num)]
    decide
  have hdms0 : degToDmsStr (0 : ℚ) = "0°00'00" := by
    unfold degToDmsStr
    rw [show (0 : ℚ) = ((0 : ℤ) : ℚ) by norm_num, degToDMS_intCast]
    decide
  have hdms180 : degToDmsStr (180 : ℚ) = "180°00'00" := by
    unfold degToDmsStr
    rw [show (180 : ℚ) = ((180 : ℤ) : ℚ) by norm_num, degToDMS_intCast]
    decide
  refine ⟨?_, ?_, ?_, ?_, by decide⟩
  · simp only [fmtHousesLines, List.getD_cons_succ, List.getD_cons_zero, hmc,
      hsign0, hdms0]
    rfl
  · simp only [fmtHousesLines, List.getD_cons_succ, List.getD_cons_zero, hmc,
      hsign0, hdms0]
    rfl
  · rw [hw3, hsign180]
  · rw [hw3, hdms180]

set_option maxHeartbeats 1000000 in
theorem signsPTget_id (s : String) : signsPTget s = s := by
  unfold signsPTget
  repeat' split
  all_goals first
    | rfl
    | (rename_i h; exact h.symm)

/-- C9: the generic and translated-label renderers are extensionally equal:
the `SIGNS_PT` table is an identity map and `_render_header` ignores its
translation flag. -/
theorem claim_C9 (p : Payload) : buildTextOutput p = buildTextOutputBr p := by
  unfold buildTextOutput buildTextOutputBr
  simp only [renderHeader, renderPlanetRows, renderHouseRows, signsPTget_id,
    if_true, if_false, Bool.false_eq_true, ite_self]

/-- C10: whenever the timezone offset is a whole number of minutes, the U.T.
hour field is exactly `⌊hour + minute/60 - tz⌋`, with no wrap into 0..23;
at local 23:00 with offset −3 it renders hour 26, and at local 01:00 with
offset +3 it renders hour −2. -/
theorem claim_C10 :
    (∀ (hour minute : ℤ) (tz : ℚ), (∃ k : ℤ, (k : ℚ) = 60 * tz) →
      (utFields hour minute tz).1 = ⌊(hour : ℚ) + (minute : ℚ) / 60 - tz⌋) ∧
    ((utFields 23 0 (-3)).1 = 26 ∧ 24 ≤ (utFields 23 0 (-3)).1) ∧
    ((utFields 1 0 3).1 = -2 ∧ (utFields 1 0 3).1 < 0) := by
  have hgen : ∀ (hour minute : ℤ) (tz : ℚ), (∃ k : ℤ, (k : ℚ) = 60 * tz) →
      (utFields hour minute tz).1 = ⌊(hour : ℚ) + (minute : ℚ) / 60 - tz⌋ := by
    intro hour minute tz hex
    obtain ⟨k, hk⟩ := hex
    have hfl : ((⌊(hour : ℚ) + (minute : ℚ) / 60 - tz⌋ : ℤ) : ℚ)
        ≤ (hour : ℚ) + (minute : ℚ) / 60 - tz := Int.floor_le _
    have hfl2 : (hour : ℚ) + (minute : ℚ) / 60 - tz
        < (⌊(hour : ℚ) + (minute : ℚ) / 60 - tz⌋ : ℚ) + 1 := Int.lt_floor_add_one _
    have hNeq : (((60 * hour + minute - k - 60 * ⌊(hour : ℚ) + (minute : ℚ) / 60 - tz⌋ : ℤ)) : ℚ)
        = ((hour : ℚ) + (minute : ℚ) / 60 - tz
            - (⌊(hour : ℚ) + (minute : ℚ) / 60 - tz⌋ : ℚ)) * 60 := by
      push_cast
      linear_combination (-1 : ℚ) * hk
    have hpr : pyRound (((hour : ℚ) + (minute : ℚ) / 60 - tz
        - (⌊(hour : ℚ) + (minute : ℚ) / 60 - tz⌋ : ℚ)) * 60)
        = 60 * hour + minute - k - 60 * ⌊(hour : ℚ) + (minute : ℚ) / 60 - tz⌋ := by
      rw [← hNeq, pyRound_intCast]
    have hN59 : 60 * hour + minute - k - 60 * ⌊(hour : ℚ) + (minute : ℚ) / 60 - tz⌋ ≤ 59 := by
      by_contra hcon
      push_neg at hcon
      have : (60 : ℚ) ≤ (((60 * hour + minute - k
          - 60 * ⌊(hour : ℚ) + (minute : ℚ) / 60 - tz⌋ : ℤ)) : ℚ) := by
        exact_mod_cast hcon
      rw [hNeq] at this
      nlinarith
    simp only [utFields]
    rw [hpr, if_neg (by omega)]
  refine ⟨hgen, ⟨?_, ?_⟩, ⟨?_, ?_⟩⟩
  · rw [hgen 23 0 (-3) ⟨-180, by norm_num⟩]
    exact qfloor_eq (by norm_num) (by norm_num)
  · rw [hgen 23 0 (-3) ⟨-180, by norm_num⟩, qfloor_eq (n := 26) (by norm_num) (by norm_num)]
    norm_num
  · rw [hgen 1 0 3 ⟨180, by norm_num⟩]
    exact qfloor_eq (by norm_num) (by norm_num)
  · rw [hgen 1 0 3 ⟨180, by norm_num⟩, qfloor_eq (n := -2) (by norm_num) (by norm_num)]
    norm_num

/-- Witness for C10: local 12:30 at offset −3 gives U.T. hour field 15. -/
theorem claim_C10_witness : (utFields 12 30 (-3)).1 = 15 := by
  rw [claim_C10.1 12 30 (-3) ⟨-180, by norm_num⟩]
  exact qfloor_eq (by norm_num) (by norm_num)

/-- C2, counterexample: at `a = 0`, `b = 180` the formula
`((a - b + 180) mod 360) - 180` evaluates to exactly `-180`, which lies
outside the claimed half-open interval `(-180, 180]`. -/
theorem claim_C2_counterexample :
    shortestSignedDiff 0 180 = -180 ∧
      ¬(-180 < shortestSignedDiff 0 180 ∧ shortestSignedDiff 0 180 ≤ 180) := by
  have h : shortestSignedDiff 0 180 = -180 := by
    unfold shortestSignedDiff
    rw [qmod_eq (k := 0) (r := 0) (by norm_num) (by norm_num) (by norm_num)]
    norm_num
  refine ⟨h, ?_⟩
  rw [h]; norm_num

/-- C2, amended: for all rationals `a`, `b`,
`signedDiff(a,b) = ((a - b + 180) mod 360) - 180` lies in the half-open
interval `[-180, +180)` (the boundary value `-180` is attained and `+180`
never is), and `signedDiff(a,a) = 0`. -/
theorem claim_C2_amended (a b : ℚ) :
    -180 ≤ shortestSignedDiff a b ∧ shortestSignedDiff a b < 180 ∧
      shortestSignedDiff a a = 0 := by
  have h0 := qmod_nonneg (a - b + 180) (b := 360) (by norm_num)
  have h1 := qmod_lt (a - b + 180) (b := 360) (by norm_num)
  exact ⟨by unfold shortestSignedDiff; linarith,
    by unfold shortestSignedDiff; linarith, shortestSignedDiff_self a⟩

/-- C7: for every non-negative degree value, the DMS formatter's minute and
second fields lie in `0..59` (after the `60`-second and `60`-minute carries)
and reconstructing `D + M/60 + S/3600` differs from the input by less than
`1/3600` of a degree. -/
theorem claim_C7 (deg : ℚ) (hdeg : 0 ≤ deg) :
    0 ≤ (degToDMS deg).2.1 ∧ (degToDMS deg).2.1 ≤ 59 ∧
    0 ≤ (degToDMS deg).2.2 ∧ (degToDMS deg).2.2 ≤ 59 ∧
    |(((degToDMS deg).1 : ℚ) + ((degToDMS deg).2.1 : ℚ) / 60 +
        ((degToDMS deg).2.2 : ℚ) / 3600) - deg| < 1/3600 := by
  have hdle : ((dmsD deg : ℤ) : ℚ) ≤ deg := Int.floor_le deg
  have hdlt : deg < (dmsD deg : ℚ) + 1 := Int.lt_floor_add_one deg
  have hmf0 : 0 ≤ dmsMf deg := by
    unfold dmsMf; unfold dmsD at hdle; nlinarith
  have hmf60 : dmsMf deg < 60 := by
    unfold dmsMf; unfold dmsD at hdlt; nlinarith
  have hmle : ((dmsM deg : ℤ) : ℚ) ≤ dmsMf deg := Int.floor_le _
  have hmlt : dmsMf deg < (dmsM deg : ℚ) + 1 := Int.lt_floor_add_one _
  have hm0 : 0 ≤ dmsM deg := Int.floor_nonneg.mpr hmf0
  have hm59 : dmsM deg ≤ 59 := by
    have h : dmsM deg < 60 := Int.floor_lt.mpr (by exact_mod_cast hmf60)
    omega
  have hsf0 : 0 ≤ dmsSf deg := by unfold dmsSf; nlinarith
  have hsf60 : dmsSf deg < 60 := by unfold dmsSf; nlinarith
  have hs00 : 0 ≤ dmsS0 deg := pyRound_nonneg hsf0
  have hs060 : dmsS0 deg ≤ 60 := pyRound_le_int (by exact_mod_cast hsf60.le)
  have herr : |((dmsS0 deg : ℤ) : ℚ) - dmsSf deg| ≤ 1/2 := pyRound_err _
  have herr' := abs_le.mp herr
  have hrecon : deg = ((dmsD deg : ℤ) : ℚ) + (dmsM deg : ℚ)/60 + dmsSf deg/3600 := by
    unfold dmsSf dmsM dmsMf dmsD
    ring
  have hep : ((degToDMS deg).1 : ℚ) + ((degToDMS deg).2.1 : ℚ)/60 +
      ((degToDMS deg).2.2 : ℚ)/3600
      = ((dmsD deg : ℤ) : ℚ) + (dmsM deg : ℚ)/60 + (dmsS0 deg : ℚ)/3600 := by
    simp only [degToDMS]
    split_ifs with h1 h2 h3
    · have hms : dmsM deg = 59 := by omega
      push_cast [hms, h1]
      ring
    · push_cast [h1]
      ring
    · exact absurd h3 (by omega)
    · ring
  have hgoal : ((dmsD deg : ℤ) : ℚ) + (dmsM deg : ℚ)/60 + (dmsS0 deg : ℚ)/3600 - deg
      = (((dmsS0 deg : ℤ) : ℚ) - dmsSf deg)/3600 := by
    linear_combination -hrecon
  have hm2 : 0 ≤ (degToDMS deg).2.1 ∧ (degToDMS deg).2.1 ≤ 59 := by
    simp only [degToDMS]
    split_ifs with h1 h2 h3 <;> omega
  have hs2 : 0 ≤ (degToDMS deg).2.2 ∧ (degToDMS deg).2.2 ≤ 59 := by
    simp only [degToDMS]
    split_ifs with h1 <;> omega
  refine ⟨hm2.1, hm2.2, hs2.1, hs2.2, ?_⟩
  rw [hep, hgoal]
  have habs : |(((dmsS0 deg : ℤ) : ℚ) - dmsSf deg)/3600|
      = |((dmsS0 deg : ℤ) : ℚ) - dmsSf deg|/3600 := by
    rw [abs_div]
    norm_num
  rw [habs]
  have hnn : (0 : ℚ) ≤ |((dmsS0 deg : ℤ) : ℚ) - dmsSf deg| := abs_nonneg _
  linarith

/-- Witness for C7 at `deg = 123.456`. -/
theorem claim_C7_witness :
    (0 : ℚ) ≤ 123456/1000 ∧
    (0 ≤ (degToDMS (123456/1000)).2.1 ∧ (degToDMS (123456/1000)).2.1 ≤ 59 ∧
     0 ≤ (degToDMS (123456/1000)).2.2 ∧ (degToDMS (123456/1000)).2.2 ≤ 59 ∧
     |(((degToDMS (123456/1000)).1 : ℚ) + ((degToDMS (123456/1000)).2.1 : ℚ) / 60 +
        ((degToDMS (123456/1000)).2.2 : ℚ) / 3600) - 123456/1000| < 1/3600) :=
  ⟨by norm_num, claim_C7 (123456/1000) (by norm_num)⟩

end AstroEngine
